import Mathlib

/-!
# Verification of the ankibot enrichment pipeline and Telegram auth layer

A shallow embedding of the relevant parts of the repository:

* `tg_tools.py` — `validate_tg_init_data` (Telegram Mini-App HMAC validation);
* `process.py`  — `parse_claude_response`, `get_audio`, `generate_audio_files`,
  `create_language_entry` and the per-line loop of `lambda_handler`;
* `core.py`     — `Example` / `LanguageEntry` dataclasses with
  `to_dict` / `from_dict` and the DynamoDB-backed store operations.

Python strings appearing in the authentication layer are modelled as their
UTF-8 byte sequences (`List Nat`, each element `< 256`); this is faithful for
everything the claims touch because UTF-8 byte-wise lexicographic order agrees
with Python's code-point lexicographic order on `str`.  Strings appearing in
the response parser are modelled as `List Char`.  The cryptographic
primitives from Python's `hashlib`/`hmac` (SHA-256, HMAC-SHA256, MD5) are
implemented concretely below, byte for byte.
-/

namespace AnkiBot

/-! ## 32-bit word helpers -/

/-- Truncate to a 32-bit word. -/
def w32 (n : Nat) : Nat := n % 4294967296

/-- Right rotation of a 32-bit word. -/
def rotr32 (x n : Nat) : Nat := w32 ((x >>> n) ||| (x <<< (32 - n)))

/-- Left rotation of a 32-bit word. -/
def rotl32 (x n : Nat) : Nat := w32 ((x <<< n) ||| (x >>> (32 - n)))

/-- Bitwise complement of a 32-bit word. -/
def not32 (x : Nat) : Nat := x ^^^ 4294967295

/-- Big-endian bytes (`k` of them) of a number. -/
def beBytes : Nat → Nat → List Nat
  | 0, _ => []
  | k + 1, n => beBytes k (n / 256) ++ [n % 256]

/-- Little-endian bytes (`k` of them) of a number. -/
def leBytes : Nat → Nat → List Nat
  | 0, _ => []
  | k + 1, n => n % 256 :: leBytes k (n / 256)

/-- Group a byte list into big-endian 32-bit words (dropping a ragged tail). -/
def beWords : List Nat → List Nat
  | a :: b :: c :: d :: rest => (a * 16777216 + b * 65536 + c * 256 + d) :: beWords rest
  | _ => []

/-- Group a byte list into little-endian 32-bit words (dropping a ragged tail). -/
def leWords : List Nat → List Nat
  | a :: b :: c :: d :: rest => (d * 16777216 + c * 65536 + b * 256 + a) :: leWords rest
  | _ => []

/-- Split a byte list into 64-byte chunks (structural recursion on a fuel
bound so that the definition reduces in the kernel). -/
def chunksAux : Nat → List Nat → List (List Nat)
  | 0, _ => []
  | _, [] => []
  | fuel + 1, l => l.take 64 :: chunksAux fuel (l.drop 64)

/-- Split a byte list into 64-byte chunks. -/
def chunks64 (l : List Nat) : List (List Nat) := chunksAux l.length l

/-! ## SHA-256 (FIPS 180-4), as used by Python's `hashlib.sha256` -/

/-- The 64 SHA-256 round constants. -/
def shaK : List Nat :=
  [1116352408, 1899447441, 3049323471, 3921009573, 961987163, 1508970993,
   2453635748, 2870763221, 3624381080, 310598401, 607225278, 1426881987,
   1925078388, 2162078206, 2614888103, 3248222580, 3835390401, 4022224774,
   264347078, 604807628, 770255983, 1249150122, 1555081692, 1996064986,
   2554220882, 2821834349, 2952996808, 3210313671, 3336571891, 3584528711,
   113926993, 338241895, 666307205, 773529912, 1294757372, 1396182291,
   1695183700, 1986661051, 2177026350, 2456956037, 2730485921, 2820302411,
   3259730800, 3345764771, 3516065817, 3600352804, 4094571909, 275423344,
   430227734, 506948616, 659060556, 883997877, 958139571, 1322822218,
   1537002063, 1747873779, 1955562222, 2024104815, 2227730452, 2361852424,
   2428436474, 2756734187, 3204031479, 3329325298]

/-- Working state of the SHA-256 compression function. -/
structure Hash8 where
  a : Nat
  b : Nat
  c : Nat
  d : Nat
  e : Nat
  f : Nat
  g : Nat
  h : Nat
deriving DecidableEq

/-- SHA-256 initial hash value. -/
def shaH0 : Hash8 :=
  ⟨1779033703, 3144134277, 1013904242, 2773480762,
   1359893119, 2600822924, 528734635, 1541459225⟩

/-- Message-schedule small sigma 0. -/
def ssig0 (x : Nat) : Nat := rotr32 x 7 ^^^ rotr32 x 18 ^^^ (x >>> 3)

/-- Message-schedule small sigma 1. -/
def ssig1 (x : Nat) : Nat := rotr32 x 17 ^^^ rotr32 x 19 ^^^ (x >>> 10)

/-- Extend the 16 block words to the 64 schedule words.  `rev` holds already
produced words most-recent-first; `c` counts the words still to produce. -/
def buildW (rev : List Nat) : Nat → List Nat
  | 0 => rev.reverse
  | c + 1 =>
    buildW (w32 (ssig1 (rev.getD 1 0) + rev.getD 6 0 +
                 ssig0 (rev.getD 14 0) + rev.getD 15 0) :: rev) c

/-- One SHA-256 round. -/
def shaStep (st : Hash8) (kw : Nat × Nat) : Hash8 :=
  let s1 := rotr32 st.e 6 ^^^ rotr32 st.e 11 ^^^ rotr32 st.e 25
  let ch := (st.e &&& st.f) ^^^ (not32 st.e &&& st.g)
  let t1 := w32 (st.h + s1 + ch + kw.1 + kw.2)
  let s0 := rotr32 st.a 2 ^^^ rotr32 st.a 13 ^^^ rotr32 st.a 22
  let maj := (st.a &&& st.b) ^^^ (st.a &&& st.c) ^^^ (st.b &&& st.c)
  let t2 := w32 (s0 + maj)
  ⟨w32 (t1 + t2), st.a, st.b, st.c, w32 (st.d + t1), st.e, st.f, st.g⟩

/-- SHA-256 compression of one 16-word block. -/
def shaCompress (h : Hash8) (block : List Nat) : Hash8 :=
  let w := buildW block.reverse 48
  let st := (shaK.zip w).foldl shaStep h
  ⟨w32 (h.a + st.a), w32 (h.b + st.b), w32 (h.c + st.c), w32 (h.d + st.d),
   w32 (h.e + st.e), w32 (h.f + st.f), w32 (h.g + st.g), w32 (h.h + st.h)⟩

/-- SHA-256 padding: `0x80`, zeros, then the 64-bit big-endian bit length. -/
def shaPad (msg : List Nat) : List Nat :=
  msg ++ 128 :: List.replicate ((119 - msg.length % 64) % 64) 0 ++
    beBytes 8 (msg.length * 8)

/-- SHA-256 digest (32 bytes) of a byte sequence. -/
def sha256 (msg : List Nat) : List Nat :=
  let hf := (chunks64 (shaPad msg)).foldl (fun h blk => shaCompress h (beWords blk)) shaH0
  [hf.a, hf.b, hf.c, hf.d, hf.e, hf.f, hf.g, hf.h].flatMap (beBytes 4)

/-- HMAC-SHA256 (RFC 2104, block size 64) as computed by Python's
`hmac.new(key, msg, hashlib.sha256).digest()`. -/
def hmacSha256 (key msg : List Nat) : List Nat :=
  let k0 := if 64 < key.length then sha256 key else key
  let k1 := k0 ++ List.replicate (64 - k0.length) 0
  sha256 (k1.map (· ^^^ 92) ++ sha256 (k1.map (· ^^^ 54) ++ msg))

/-! ## MD5 (RFC 1321), as used by Python's `hashlib.md5` -/

/-- The 64 MD5 sine-table constants. -/
def md5T : List Nat :=
  [3614090360, 3905402710, 606105819, 3250441966, 4118548399, 1200080426,
   2821735955, 4249261313, 1770035416, 2336552879, 4294925233, 2304563134,
   1804603682, 4254626195, 2792965006, 1236535329, 4129170786, 3225465664,
   643717713, 3921069994, 3593408605, 38016083, 3634488961, 3889429448,
   568446438, 3275163606, 4107603335, 1163531501, 2850285829, 4243563512,
   1735328473, 2368359562, 4294588738, 2272392833, 1839030562, 4259657740,
   2763975236, 1272893353, 4139469664, 3200236656, 681279174, 3936430074,
   3572445317, 76029189, 3654602809, 3873151461, 530742520, 3299628645,
   4096336452, 1126891415, 2878612391, 4237533241, 1700485571, 2399980690,
   4293915773, 2240044497, 1873313359, 4264355552, 2734768916, 1309151649,
   4149444226, 3174756917, 718787259, 3951481745]

/-- The 64 MD5 per-round left-rotation amounts. -/
def md5S : List Nat :=
  [7, 12, 17, 22, 7, 12, 17, 22, 7, 12, 17, 22, 7, 12, 17, 22,
   5, 9, 14, 20, 5, 9, 14, 20, 5, 9, 14, 20, 5, 9, 14, 20,
   4, 11, 16, 23, 4, 11, 16, 23, 4, 11, 16, 23, 4, 11, 16, 23,
   6, 10, 15, 21, 6, 10, 15, 21, 6, 10, 15, 21, 6, 10, 15, 21]

/-- MD5 message-word index for round `i`. -/
def md5G (i : Nat) : Nat :=
  if i < 16 then i
  else if i < 32 then (5 * i + 1) % 16
  else if i < 48 then (3 * i + 5) % 16
  else (7 * i) % 16

/-- MD5 round function for round `i`. -/
def md5F (i b c d : Nat) : Nat :=
  if i < 16 then (b &&& c) ||| (not32 b &&& d)
  else if i < 32 then (d &&& b) ||| (not32 d &&& c)
  else if i < 48 then b ^^^ c ^^^ d
  else c ^^^ (b ||| not32 d)

/-- Working state of the MD5 compression function. -/
structure Md5State where
  a : Nat
  b : Nat
  c : Nat
  d : Nat
deriving DecidableEq

/-- One MD5 round over block words `m`. -/
def md5Step (m : List Nat) (st : Md5State) (i : Nat) : Md5State :=
  let f := w32 (md5F i st.b st.c st.d + st.a + md5T.getD i 0 + m.getD (md5G i) 0)
  ⟨st.d, w32 (st.b + rotl32 f (md5S.getD i 0)), st.b, st.c⟩

/-- MD5 compression of one 16-word block. -/
def md5Compress (st : Md5State) (block : List Nat) : Md5State :=
  let r := (List.range 64).foldl (md5Step block) st
  ⟨w32 (st.a + r.a), w32 (st.b + r.b), w32 (st.c + r.c), w32 (st.d + r.d)⟩

/-- MD5 padding: `0x80`, zeros, then the 64-bit little-endian bit length. -/
def md5Pad (msg : List Nat) : List Nat :=
  msg ++ 128 :: List.replicate ((119 - msg.length % 64) % 64) 0 ++
    leBytes 8 (msg.length * 8)

/-- MD5 digest (16 bytes) of a byte sequence. -/
def md5 (msg : List Nat) : List Nat :=
  let f := (chunks64 (md5Pad msg)).foldl (fun st blk => md5Compress st (leWords blk))
    ⟨1732584193, 4023233417, 2562383102, 271733878⟩
  [f.a, f.b, f.c, f.d].flatMap (leBytes 4)

/-! ## Hex encoding and UTF-8 -/

/-- Lowercase hex digit of a nibble, as a byte. -/
def hexDigitByte (n : Nat) : Nat := if n < 10 then 48 + n else 87 + n

/-- Lowercase hex encoding of a byte sequence (Python's `.hexdigest()`),
as a byte sequence. -/
def hexBytes (bs : List Nat) : List Nat :=
  bs.flatMap fun b => [hexDigitByte (b / 16), hexDigitByte (b % 16)]

/-- UTF-8 encoding of a code point. -/
def utf8EncodeNat (n : Nat) : List Nat :=
  if n < 128 then [n]
  else if n < 2048 then [192 + n / 64, 128 + n % 64]
  else if n < 65536 then [224 + n / 4096, 128 + n / 64 % 64, 128 + n % 64]
  else [240 + n / 262144, 128 + n / 4096 % 64, 128 + n / 64 % 64, 128 + n % 64]

/-- UTF-8 bytes of a string (Python's `str.encode('utf-8')`). -/
def strBytes (s : String) : List Nat := s.data.flatMap fun c => utf8EncodeNat c.toNat

/-! ## tg_tools.py — `validate_tg_init_data`

Python `str` values are modelled as UTF-8 byte sequences.  `'&'` is byte 38,
`'='` is 61, `'\n'` is 10, `'%'` is 37. -/

/-- Python `s.split(sep)` for a one-byte separator (`''.split(sep) == ['']`). -/
def splitOnByte (sep : Nat) : List Nat → List (List Nat)
  | [] => [[]]
  | b :: bs =>
    match splitOnByte sep bs with
    | [] => [[b]]
    | x :: xs => if b = sep then [] :: x :: xs else (b :: x) :: xs

/-- Value of an ASCII hex digit. -/
def hexVal (b : Nat) : Option Nat :=
  if 48 ≤ b ∧ b ≤ 57 then some (b - 48)
  else if 97 ≤ b ∧ b ≤ 102 then some (b - 87)
  else if 65 ≤ b ∧ b ≤ 70 then some (b - 55)
  else none

/-- `urllib.parse.unquote`, modelled at the byte level: a `%` followed by two
hex digits decodes to that byte; malformed sequences pass through unchanged.
(Python's replacement-character handling of invalid UTF-8 is not modelled;
the claims never depend on it.) -/
def unquoteBytes : List Nat → List Nat
  | [] => []
  | 37 :: h :: l :: rest =>
    match hexVal h, hexVal l with
    | some hv, some lv => (hv * 16 + lv) :: unquoteBytes rest
    | _, _ => 37 :: unquoteBytes (h :: l :: rest)
  | b :: rest => b :: unquoteBytes rest

/-- Python `param.split('=', 1)` when `'=' in param`: the part before the
first `'='` and the part after it; `none` when there is no `'='`. -/
def splitFirstEq : List Nat → Option (List Nat × List Nat)
  | [] => none
  | 61 :: rest => some ([], rest)
  | b :: rest => (splitFirstEq rest).map fun kv => (b :: kv.1, kv.2)

/-- A Python `dict` as an insertion-ordered association list:
assignment overwrites in place or appends. -/
def dinsert (k v : List Nat) : List (List Nat × List Nat) → List (List Nat × List Nat)
  | [] => [(k, v)]
  | (k', v') :: rest => if k' = k then (k, v) :: rest else (k', v') :: dinsert k v rest

/-- Dict lookup. -/
def dlookup (k : List Nat) (d : List (List Nat × List Nat)) : Option (List Nat) :=
  (d.find? fun p => p.1 == k).map (·.2)

/-- Dict `pop`: remove the entry with the given key, preserving order. -/
def dremove (k : List Nat) : List (List Nat × List Nat) → List (List Nat × List Nat)
  | [] => []
  | (k', v') :: rest => if k' = k then rest else (k', v') :: dremove k rest

/-- The parsing loop of `validate_tg_init_data`: split on `'&'`, keep the
parameters containing `'='`, store the URL-decoded value under the key. -/
def parseInitData (s : List Nat) : List (List Nat × List Nat) :=
  (splitOnByte 38 s).foldl
    (fun d param =>
      match splitFirstEq param with
      | some kv => dinsert kv.1 (unquoteBytes kv.2) d
      | none => d)
    []

/-- Byte-wise lexicographic `≤`, which on UTF-8 bytes agrees with Python's
code-point comparison of `str`. -/
def bytesLe : List Nat → List Nat → Bool
  | [], _ => true
  | _ :: _, [] => false
  | x :: xs, y :: ys => if x < y then true else if y < x then false else bytesLe xs ys

/-- Stable insertion of a key into a sorted list (an element equal to `x`
already in the list stays in front of `x`, as in Python's stable `sorted`). -/
def insertSorted (x : List Nat) : List (List Nat) → List (List Nat)
  | [] => [x]
  | y :: ys => if bytesLe y x then y :: insertSorted x ys else x :: y :: ys

/-- Python's `sorted` on a list of strings (modelled as byte sequences):
a stable sort by `bytesLe`. -/
def sortBytes (l : List (List Nat)) : List (List Nat) :=
  l.foldr insertSorted []

/-! ### A success model of `json.loads` (Python standard library, external to
the repository): a fuel-driven recogniser of the JSON grammar Python accepts,
including the non-standard `NaN` / `Infinity` literals. -/

/-- Is an ASCII digit. -/
def isDigitB (b : Nat) : Bool := 48 ≤ b && b ≤ 57

/-- Skip JSON whitespace. -/
def skipWs : List Nat → List Nat
  | [] => []
  | b :: r => if b = 32 ∨ b = 9 ∨ b = 10 ∨ b = 13 then skipWs r else b :: r

/-- Longest digit run at the head. -/
def spanDigits : List Nat → List Nat × List Nat
  | [] => ([], [])
  | b :: r =>
    if isDigitB b then
      match spanDigits r with
      | (x, y) => (b :: x, y)
    else ([], b :: r)

/-- Rest of a JSON string after the opening quote. -/
def jsonStringRest : List Nat → Option (List Nat)
  | [] => none
  | 34 :: rest => some rest
  | 92 :: e :: rest =>
    if e = 34 ∨ e = 92 ∨ e = 47 ∨ e = 98 ∨ e = 102 ∨ e = 110 ∨ e = 114 ∨ e = 116 then
      jsonStringRest rest
    else if e = 117 then
      match rest with
      | h1 :: h2 :: h3 :: h4 :: rest' =>
        if (hexVal h1).isSome ∧ (hexVal h2).isSome ∧ (hexVal h3).isSome ∧ (hexVal h4).isSome then
          jsonStringRest rest'
        else none
      | _ => none
    else none
  | b :: rest => if b < 32 then none else jsonStringRest rest

/-- JSON fractional part (optional). -/
def jsonFrac : List Nat → Option (List Nat)
  | 46 :: r => match spanDigits r with
    | ([], _) => none
    | (_, r') => some r'
  | r => some r

/-- JSON exponent part (optional). -/
def jsonExp : List Nat → Option (List Nat)
  | [] => some []
  | b :: r =>
    if b = 101 ∨ b = 69 then
      let r1 := match r with
        | 43 :: r2 => r2
        | 45 :: r2 => r2
        | _ => r
      match spanDigits r1 with
      | ([], _) => none
      | (_, r') => some r'
    else some (b :: r)

/-- JSON number. -/
def jsonNumber (bs : List Nat) : Option (List Nat) :=
  let bs1 := match bs with
    | 45 :: r => r
    | _ => bs
  match bs1 with
  | 48 :: r => (jsonFrac r).bind jsonExp
  | b :: r =>
    if isDigitB b then
      match spanDigits r with
      | (_, r') => (jsonFrac r').bind jsonExp
    else none
  | [] => none

/-- Position inside the JSON grammar for `jsonRun`. -/
inductive JWhere
  | val
  | arrTail
  | objTail
  | objMember

/-- Fuel-driven recursive-descent recogniser for JSON values. -/
def jsonRun : Nat → JWhere → List Nat → Option (List Nat)
  | 0, _, _ => none
  | fuel + 1, .val, bs =>
    (match skipWs bs with
     | 110 :: 117 :: 108 :: 108 :: rest => some rest
     | 116 :: 114 :: 117 :: 101 :: rest => some rest
     | 102 :: 97 :: 108 :: 115 :: 101 :: rest => some rest
     | 78 :: 97 :: 78 :: rest => some rest
     | 73 :: 110 :: 102 :: 105 :: 110 :: 105 :: 116 :: 121 :: rest => some rest
     | 45 :: 73 :: 110 :: 102 :: 105 :: 110 :: 105 :: 116 :: 121 :: rest => some rest
     | 34 :: rest => jsonStringRest rest
     | 91 :: rest =>
       (match skipWs rest with
        | 93 :: r => some r
        | r => (jsonRun fuel .val r).bind (jsonRun fuel .arrTail))
     | 123 :: rest =>
       (match skipWs rest with
        | 125 :: r => some r
        | r => (jsonRun fuel .objMember r).bind (jsonRun fuel .objTail))
     | bs' => jsonNumber bs')
  | fuel + 1, .arrTail, bs =>
    (match skipWs bs with
     | 93 :: r => some r
     | 44 :: r => (jsonRun fuel .val r).bind (jsonRun fuel .arrTail)
     | _ => none)
  | fuel + 1, .objTail, bs =>
    (match skipWs bs with
     | 125 :: r => some r
     | 44 :: r => (jsonRun fuel .objMember r).bind (jsonRun fuel .objTail)
     | _ => none)
  | fuel + 1, .objMember, bs =>
    (match skipWs bs with
     | 34 :: rest =>
       (jsonStringRest rest).bind fun r =>
         match skipWs r with
         | 58 :: r2 => jsonRun fuel .val r2
         | _ => none
     | _ => none)

/-- Does `json.loads` succeed on these bytes? -/
def isValidJsonBytes (bs : List Nat) : Bool :=
  match jsonRun (2 * bs.length + 2) .val bs with
  | some rest => skipWs rest == []
  | none => false

/-- The data-check string built by `validate_tg_init_data`: `"key=value"`
lines for the keys of `d` in sorted order, joined by `'\n'`. -/
def dataCheckString (d : List (List Nat × List Nat)) : List Nat :=
  List.intercalate [10]
    ((sortBytes (d.map (·.1))).map fun k => k ++ 61 :: (dlookup k d).getD [])

/-- Stable insertion of a pair into a list sorted by key. -/
def insertPairSorted (x : List Nat × List Nat) :
    List (List Nat × List Nat) → List (List Nat × List Nat)
  | [] => [x]
  | y :: ys => if bytesLe y.1 x.1 then y :: insertPairSorted x ys else x :: y :: ys

/-- Sort an association list by key. -/
def sortPairsByKey (l : List (List Nat × List Nat)) : List (List Nat × List Nat) :=
  l.foldr insertPairSorted []

/-- The `"hash"` key. -/
def hashKey : List Nat := strBytes "hash"

/-- The canonical string exactly as the claim words it: parse the init data
as `'&'`-separated `key=value` pairs with URL-decoded values, remove the
`hash` field, sort the remaining pairs lexicographically by key, and join the
`key=value` lines with `'\n'`. -/
def claimCanonical (s : List Nat) : List Nat :=
  List.intercalate [10]
    ((sortPairsByKey ((parseInitData s).filter fun p => !(p.1 == hashKey))).map
      fun p => p.1 ++ 61 :: p.2)

/-- The `"user"` key. -/
def userKey : List Nat := strBytes "user"

/-- `tg_tools.validate_tg_init_data`, translated line by line.  The bot token
(`TELEGRAM_TOKEN`) is passed explicitly; a missing configuration is the empty
byte sequence (Python truthiness of `None` / `''`).  The returned user
payload is the raw `user` value when `json.loads` succeeds on it (the parsed
structure itself is never inspected by the callers the claims cover). -/
def validate_tg_init_data (token initData : List Nat) : Bool × Option (List Nat) :=
  if token = [] then (false, none)
  else
    let parsed := parseInitData initData
    match dlookup hashKey parsed with
    | none => (false, none)
    | some rh =>
      if rh = [] then (false, none)
      else
        let dcs := dataCheckString (dremove hashKey parsed)
        let secret := hmacSha256 (strBytes "WebAppData") token
        let calcHash := hexBytes (hmacSha256 secret dcs)
        let isValid := calcHash == rh
        let userData :=
          if isValid then
            match dlookup userKey parsed with
            | some uv => if isValidJsonBytes uv then some uv else none
            | none => none
          else none
        (isValid, userData)

/-! ## process.py — `parse_claude_response`

Python `str` values here are modelled as `List Char`. -/

/-- The characters of a string literal. -/
def chars (s : String) : List Char := s.data

/-- Python `s.split(sep)` for a one-character separator. -/
def splitOnChar (sep : Char) : List Char → List (List Char)
  | [] => [[]]
  | c :: cs =>
    match splitOnChar sep cs with
    | [] => [[c]]
    | x :: xs => if c = sep then [] :: x :: xs else (c :: x) :: xs

/-- Python `str.isspace` on the whitespace characters that occur in practice
(ASCII whitespace; the exotic Unicode space classes never appear in the
claims). -/
def pyIsSpace (c : Char) : Bool :=
  c = ' ' || c = '\t' || c = '\n' || c = '\r' || c.toNat = 11 || c.toNat = 12

/-- Python `str.strip()`. -/
def pyStrip (l : List Char) : List Char :=
  ((l.dropWhile pyIsSpace).reverse.dropWhile pyIsSpace).reverse

/-- `[line.strip() for line in response.split('\n') if line.strip()]`. -/
def nonBlankLines (r : List Char) : List (List Char) :=
  (splitOnChar '\n' r).filterMap fun l =>
    let t := pyStrip l
    if t = [] then none else some t

/-- `line.split('|')`. -/
def pipeParts (l : List Char) : List (List Char) := splitOnChar '|' l

/-- The example loop of `parse_claude_response`: a line containing `'|'` is
unpacked by `de, ru = line.split('|')`, which raises (modelled as `none`)
unless the split has exactly two parts; a line without `'|'` is skipped. -/
def parseExampleLines : List (List Char) → Option (List (List Char × List Char))
  | [] => some []
  | l :: ls =>
    if l.contains '|' then
      match pipeParts l with
      | [de, ru] => (parseExampleLines ls).map fun rest => (pyStrip de, pyStrip ru) :: rest
      | _ => none
    else parseExampleLines ls

/-- The pair a single example line yields: a line splitting into exactly two
parts around `'|'` gives the stripped pair, any other line gives nothing. -/
def pairOf (l : List Char) : Option (List Char × List Char) :=
  match pipeParts l with
  | [de, ru] => some (pyStrip de, pyStrip ru)
  | _ => none

/-- `process.parse_claude_response`, translated line by line.  `none` models
an uncaught exception (`lines[0]` on an all-blank response, or a failing
tuple unpacking of `line.split('|')`). -/
def parse_claude_response (r : List Char) :
    Option (List Char × List Char × List (List Char × List Char)) :=
  match nonBlankLines r with
  | [] => none
  | defLine :: rest =>
    match pipeParts defLine with
    | [d, t] => (parseExampleLines rest).map fun exs => (pyStrip d, pyStrip t, exs)
    | _ => none

/-! ## process.py — `get_audio`

The blob store is the list of S3 keys present in the audio bucket; the TTS
provider's behaviour for a synthesis task is an oracle value passed in
(`SynthOutcome`).  Filenames are `List Char`. -/

/-- UTF-8 bytes of a `List Char` string (Python `text.encode('utf-8')`). -/
def charBytes (l : List Char) : List Nat := l.flatMap fun c => utf8EncodeNat c.toNat

/-- `hashlib.md5(text.encode('utf-8')).hexdigest()` as characters. -/
def md5HexChars (text : List Char) : List Char :=
  (hexBytes (md5 (charBytes text))).map Char.ofNat

/-- The deterministic audio filename: MD5 hex digest plus `'.mp3'`. -/
def audioFilename (text : List Char) : List Char := md5HexChars text ++ chars ".mp3"

/-- The deterministic blob key `audio/<md5-hex>.mp3`. -/
def audioKey (text : List Char) : List Char := chars "audio/" ++ audioFilename text

/-- What the provider does with a synthesis task submitted for the text:
it completes (writing its own output object at `pollyKey`), it reaches the
`'failed'` terminal state, or an exception is raised during synthesis or
storage (`submitted` records whether the task had been submitted before the
exception). -/
inductive SynthOutcome
  | completed (pollyKey : List Char)
  | failed
  | errored (submitted : Bool)

/-- Result of one `get_audio` call: the returned value, the blob store
afterwards, and how many synthesis jobs were submitted to the provider. -/
structure AudioResult where
  result : Option (List Char)
  store : List (List Char)
  jobs : Nat
deriving DecidableEq

/-- `process.get_audio`, translated step by step: existence check on the
deterministic key first (cache hit submits nothing), otherwise submit a
synthesis task and poll it to a terminal state; on completion copy the
provider output to the deterministic key and delete the scratch object; on
failure or any exception return `none` (never raise). -/
def get_audio (outcome : SynthOutcome) (store : List (List Char)) (text : List Char) :
    AudioResult :=
  let filename := audioFilename text
  let s3Key := audioKey text
  if store.contains s3Key then ⟨some filename, store, 0⟩
  else
    match outcome with
    | .completed pollyKey =>
      let s1 := store ++ [pollyKey]
      let s2 := s1 ++ [s3Key]
      ⟨some filename, s2.erase pollyKey, 1⟩
    | .failed => ⟨none, store, 1⟩
    | .errored submitted => ⟨none, store, if submitted then 1 else 0⟩

/-! ## process.py — `generate_audio_files`

`asyncio.gather` launches one task per text and returns the results indexed
like the inputs, whatever order the tasks complete in.  The completion order
is modelled explicitly: `order` lists the task indices in the order they
finish, and the fan-in step assembles the output by input index.  The result
of the task for a text is given by the oracle `f`. -/

/-- The result of the task with input index `i`. -/
def taskRes (f : List Char → Option (List Char)) (ts : List (List Char)) (i : Nat) :
    Option (List Char) :=
  match ts.get? i with
  | some t => f t
  | none => none

/-- The `(index, result)` pairs in completion order. -/
def completeInOrder (f : List Char → Option (List Char)) (ts : List (List Char))
    (order : List Nat) : List (Nat × Option (List Char)) :=
  order.map fun i => (i, taskRes f ts i)

/-- Assemble the gathered results by input index. -/
def fanIn (n : Nat) (completed : List (Nat × Option (List Char))) :
    List (Option (List Char)) :=
  (List.range n).map fun i =>
    match completed.find? fun p => p.1 == i with
    | some p => p.2
    | none => none

/-- `process.generate_audio_files`: fan out over the query and every example
text, await all, return `(results[0], results[1:])`. -/
def generate_audio_files (f : List Char → Option (List Char)) (query : List Char)
    (example_texts : List (List Char)) (order : List Nat) :
    Option (List Char) × List (Option (List Char)) :=
  let ts := query :: example_texts
  match fanIn ts.length (completeInOrder f ts order) with
  | [] => (none, [])
  | r :: rs => (r, rs)

/-! ## core.py — `Example`, `LanguageEntry`, and the store -/

/-- `core.Example`. -/
structure Example where
  de : List Char
  ru : List Char
  audio_file : Option (List Char) := none
deriving DecidableEq

/-- `core.LanguageEntry`.  `id = []` / `created_at = []` model the falsy
Python defaults (`None` / `''`) that `__post_init__` replaces. -/
structure LanguageEntry where
  query : List Char
  definition : List Char
  translation : List Char
  examples : List Example
  audio_file : Option (List Char) := none
  id : List Char := []
  created_at : List Char := []
deriving DecidableEq

/-- `LanguageEntry.__post_init__`: a falsy `id` is replaced by a fresh
`uuid4` and a falsy `created_at` by the current time (both passed in
explicitly, since they are environment-supplied). -/
def mkLanguageEntry (freshId freshTime : List Char) (e : LanguageEntry) : LanguageEntry :=
  { e with
    id := if e.id = [] then freshId else e.id
    created_at := if e.created_at = [] then freshTime else e.created_at }

/-- A stored document value (DynamoDB item): null, string, list or map. -/
inductive DVal
  | null
  | str (s : List Char)
  | arr (xs : List DVal)
  | doc (fields : List (List Char × DVal))

/-- Field lookup in a stored document. -/
def dvalLookup (k : List Char) (fields : List (List Char × DVal)) : Option DVal :=
  (fields.find? fun p => p.1 == k).map (·.2)

/-- An optional string as a stored value (`None` becomes null). -/
def optStrD : Option (List Char) → DVal
  | none => .null
  | some s => .str s

/-- `Example.to_dict`. -/
def Example.to_dict (ex : Example) : DVal :=
  .doc [(chars "de", .str ex.de), (chars "ru", .str ex.ru),
        (chars "audio_file", optStrD ex.audio_file)]

/-- `Example.from_dict` (`data['de']`, `data['ru']`, `data.get('audio_file')`);
`none` models a `KeyError`/`TypeError`. -/
def Example.from_dict (d : DVal) : Option Example :=
  match d with
  | .doc fields =>
    match dvalLookup (chars "de") fields, dvalLookup (chars "ru") fields with
    | some (.str de), some (.str ru) =>
      some ⟨de, ru,
        match dvalLookup (chars "audio_file") fields with
        | some (.str s) => some s
        | _ => none⟩
    | _, _ => none
  | _ => none

/-- `[Example.from_dict(ex) for ex in data['examples']]`, failing if any
element fails. -/
def examplesFromDict : List DVal → Option (List Example)
  | [] => some []
  | d :: ds =>
    match Example.from_dict d with
    | some ex => (examplesFromDict ds).map fun rest => ex :: rest
    | none => none

/-- `LanguageEntry.to_dict`. -/
def LanguageEntry.to_dict (e : LanguageEntry) : DVal :=
  .doc [(chars "id", .str e.id), (chars "query", .str e.query),
        (chars "definition", .str e.definition),
        (chars "translation", .str e.translation),
        (chars "examples", .arr (e.examples.map Example.to_dict)),
        (chars "audio_file", optStrD e.audio_file),
        (chars "created_at", .str e.created_at)]

/-- `LanguageEntry.from_dict`; the constructed dataclass runs
`__post_init__`, so the fresh id / timestamp are parameters. -/
def LanguageEntry.from_dict (freshId freshTime : List Char) (d : DVal) :
    Option LanguageEntry :=
  match d with
  | .doc fields =>
    match dvalLookup (chars "id") fields, dvalLookup (chars "query") fields,
        dvalLookup (chars "definition") fields, dvalLookup (chars "translation") fields,
        dvalLookup (chars "examples") fields, dvalLookup (chars "created_at") fields with
    | some (.str i), some (.str q), some (.str df), some (.str tr),
        some (.arr exds), some (.str ca) =>
      (examplesFromDict exds).map fun exl =>
        mkLanguageEntry freshId freshTime
          ⟨q, df, tr, exl,
           (match dvalLookup (chars "audio_file") fields with
            | some (.str s) => some s
            | _ => none),
           i, ca⟩
    | _, _, _, _, _, _ => none
  | _ => none

/-- The `language_entries` table, as the list of stored entries in insertion
order. -/
def get_by_query (store : List LanguageEntry) (q : List Char) : Option LanguageEntry :=
  store.find? fun e => e.query == q

/-- DynamoDB `put_item` keyed by `id`: replace the item with the same id,
or append. -/
def put_item (store : List LanguageEntry) (e : LanguageEntry) : List LanguageEntry :=
  if store.any fun x => x.id == e.id then
    store.map fun x => if x.id == e.id then e else x
  else store ++ [e]

/-! ## process.py — `create_language_entry` and the `lambda_handler` loop

The LLM call is the oracle `claude` (`none` models a raised provider error);
the per-text audio results and their completion order are the oracles of
`generate_audio_files`.  The user level and context only shape the prompt,
so they are folded into `claude`. -/

/-- `process.create_language_entry`: LLM call, parse, parallel audio fan-out,
attach example audio by `zip`, build the entry.  `none` models a raised
exception (LLM error or parse error). -/
def create_language_entry (claude : List Char → Option (List Char))
    (audioF : List Char → Option (List Char)) (order : List Nat)
    (freshId freshTime : List Char) (q : List Char) : Option LanguageEntry :=
  match claude q with
  | none => none
  | some resp =>
    match parse_claude_response resp with
    | none => none
    | some (d, t, pairs) =>
      let examples := pairs.map fun p => ({ de := p.1, ru := p.2 } : Example)
      let gathered := generate_audio_files audioF q (examples.map (·.de)) order
      let examples2 := examples.zipWith (fun ex a => { ex with audio_file := a }) gathered.2
      some (mkLanguageEntry freshId freshTime
        { query := q, definition := d, translation := t, examples := examples2,
          audio_file := gathered.1 })

/-- The per-line body of `process.lambda_handler`: dedup check by exact query
text, then create and save; the surrounding `try/except` turns any per-line
failure into a no-op. -/
def processLine (create : List Char → Option LanguageEntry)
    (store : List LanguageEntry) (line : List Char) : List LanguageEntry :=
  match get_by_query store line with
  | some _ => store
  | none =>
    match create line with
    | some e => put_item store e
    | none => store

/-- The line loop of `process.lambda_handler` over one message. -/
def process_lines (create : List Char → Option LanguageEntry)
    (store : List LanguageEntry) (lines : List (List Char)) : List LanguageEntry :=
  lines.foldl (processLine create) store

/-- Entries stored under a given query text. -/
def countQuery (store : List LanguageEntry) (q : List Char) : Nat :=
  (store.filter fun e => e.query == q).length

end AnkiBot

/-! Sanity checks of the SHA-256 implementation against the standard
test vectors. -/

set_option maxRecDepth 10000

theorem sha256_empty_vector :
    AnkiBot.hexBytes (AnkiBot.sha256 []) =
      AnkiBot.strBytes "e3b0c44298fc1c149afbf4c8996fb92427ae41e4649b934ca495991b7852b855" := by
  decide

theorem sha256_abc_vector :
    AnkiBot.hexBytes (AnkiBot.sha256 (AnkiBot.strBytes "abc")) =
      AnkiBot.strBytes "ba7816bf8f01cfea414140de5dae2223b00361a396177a9cb410ff61f20015ad" := by
  decide

theorem md5_abc_vector :
    AnkiBot.hexBytes (AnkiBot.md5 (AnkiBot.strBytes "abc")) =
      AnkiBot.strBytes "900150983cd24fb0d6963f7d28e17f72" := by
  decide

namespace AnkiBot

/-! ## Helper lemmas -/

theorem Example.roundtrip (ex : Example) : Example.from_dict ex.to_dict = some ex := by
  obtain ⟨de, ru, af⟩ := ex
  cases af <;> rfl

theorem examplesFromDict_roundtrip (exs : List Example) :
    examplesFromDict (exs.map Example.to_dict) = some exs := by
  induction exs with
  | nil => rfl
  | cons ex rest ih => simp [examplesFromDict, Example.roundtrip, ih]

end AnkiBot

open AnkiBot in
/-- C3: `parse_claude_response` on `"Haus, Häuser | дом\nEin Haus ist groß. |
Дом большой."` returns definition `"Haus, Häuser"`, translation `"дом"`, and
the single stripped example pair. -/
theorem parse_claude_response_haus_example :
    parse_claude_response (chars "Haus, Häuser | дом\nEin Haus ist groß. | Дом большой.") =
      some (chars "Haus, Häuser", chars "дом",
        [(chars "Ein Haus ist groß.", chars "Дом большой.")]) := by
  decide

open AnkiBot in
/-- C9: when no blob exists at the deterministic key and the synthesis task
reaches the `failed` state, or an exception occurs during synthesis or
storage, `get_audio` returns no result (and, being a total function of the
embedding, never raises). -/
theorem get_audio_failure_returns_none (outcome : SynthOutcome)
    (store : List (List Char)) (text : List Char)
    (hmiss : store.contains (audioKey text) = false)
    (hfail : outcome = SynthOutcome.failed ∨ ∃ b, outcome = SynthOutcome.errored b) :
    (get_audio outcome store text).result = none := by
  have h : audioKey text ∉ store := by simpa using hmiss
  rcases hfail with rfl | ⟨b, rfl⟩ <;> simp [get_audio, h]

namespace AnkiBot

theorem get_audio_hit (o : SynthOutcome) (store : List (List Char)) (text : List Char)
    (h : store.contains (audioKey text) = true) :
    get_audio o store text = ⟨some (audioFilename text), store, 0⟩ := by
  simp only [get_audio]
  rw [h]
  rfl

theorem get_audio_miss_completed (pk : List Char) (store : List (List Char))
    (text : List Char) (h : store.contains (audioKey text) = false) :
    get_audio (SynthOutcome.completed pk) store text =
      ⟨some (audioFilename text), ((store ++ [pk]) ++ [audioKey text]).erase pk, 1⟩ := by
  simp only [get_audio]
  rw [h]
  rfl

theorem get_audio_miss_failed (store : List (List Char)) (text : List Char)
    (h : store.contains (audioKey text) = false) :
    get_audio SynthOutcome.failed store text = ⟨none, store, 1⟩ := by
  simp only [get_audio]
  rw [h]
  rfl

theorem get_audio_miss_errored (b : Bool) (store : List (List Char)) (text : List Char)
    (h : store.contains (audioKey text) = false) :
    get_audio (SynthOutcome.errored b) store text =
      ⟨none, store, if b then 1 else 0⟩ := by
  simp only [get_audio]
  rw [h]
  rfl

theorem mem_erase_append_self (store : List (List Char)) (pk k : List Char) :
    k ∈ ((store ++ [pk]) ++ [k]).erase pk := by
  rcases eq_or_ne k pk with rfl | h
  · have hpos : 0 < (((store ++ [k]) ++ [k]).erase k).count k := by
      rw [List.count_erase_self, List.count_append, List.count_append]
      simp
    exact List.count_pos_iff.mp hpos
  · exact (List.mem_erase_of_ne h).mpr (by simp)

theorem find?_completeInOrder (f : List Char → Option (List Char))
    (ts : List (List Char)) (order : List Nat) (i : Nat) (hi : i ∈ order) :
    (completeInOrder f ts order).find? (fun p => p.1 == i) = some (i, taskRes f ts i) := by
  induction order with
  | nil => simp at hi
  | cons j rest ih =>
    rcases eq_or_ne j i with rfl | hj
    · simp [completeInOrder]
    · have hi' : i ∈ rest := by
        rcases List.mem_cons.mp hi with h | h
        · exact absurd h.symm hj
        · exact h
      have := ih hi'
      simp only [completeInOrder, List.map_cons] at this ⊢
      rw [List.find?_cons_of_neg _ (by simp [hj]), this]

theorem fanIn_completeInOrder_of_perm (f : List Char → Option (List Char))
    (ts : List (List Char)) (order : List Nat) (n : Nat)
    (hperm : order.Perm (List.range n)) :
    fanIn n (completeInOrder f ts order) = (List.range n).map (taskRes f ts) := by
  unfold fanIn
  apply List.map_congr_left
  intro i hi
  rw [find?_completeInOrder f ts order i (hperm.mem_iff.mpr hi)]

theorem range_map_taskRes (f : List Char → Option (List Char)) (ts : List (List Char)) :
    (List.range ts.length).map (taskRes f ts) = ts.map f := by
  induction ts with
  | nil => rfl
  | cons t rest ih =>
    rw [List.length_cons, List.range_succ_eq_map, List.map_cons, List.map_map]
    have hcomp : taskRes f (t :: rest) ∘ Nat.succ = taskRes f rest :=
      funext fun i => rfl
    rw [hcomp, ih]
    rfl

end AnkiBot

open AnkiBot in
/-- C7 (amended): `get_audio` derives the deterministic filename as the MD5
hex digest of the UTF-8 bytes of the text plus `'.mp3'` under blob key
`audio/<md5-hex>.mp3`; a call that finds the blob existing returns that
filename immediately with no synthesis job; a single call submits at most
one job; and when the first of two calls with identical text returns a
result, the second call short-circuits via the existence check, submits no
job, and returns the same filename.  (As stated the claim also covered a
failed first call, where the code submits a second job — see the
counterexample.) -/
theorem get_audio_cache_and_filename (o1 o2 : SynthOutcome)
    (store : List (List Char)) (text : List Char) :
    ((get_audio o1 store text).jobs ≤ 1) ∧
    (store.contains (audioKey text) = true →
      get_audio o1 store text = ⟨some (audioFilename text), store, 0⟩) ∧
    (∀ fn, (get_audio o1 store text).result = some fn → fn = audioFilename text) ∧
    ((get_audio o1 store text).result.isSome = true →
      get_audio o2 (get_audio o1 store text).store text =
        ⟨(get_audio o1 store text).result, (get_audio o1 store text).store, 0⟩) := by
  by_cases hc : store.contains (audioKey text) = true
  · rw [get_audio_hit o1 store text hc, get_audio_hit o2 store text hc]
    exact ⟨Nat.zero_le 1, fun _ => rfl, fun fn h => (Option.some.injEq _ _ ▸ h).symm,
      fun _ => rfl⟩
  · have hc' : store.contains (audioKey text) = false := by
      revert hc
      cases store.contains (audioKey text) <;> simp
    cases o1 with
    | completed pk =>
      rw [get_audio_miss_completed pk store text hc']
      refine ⟨le_refl 1, fun h => absurd h hc, fun fn h => ?_, fun _ => ?_⟩
      · exact (Option.some.injEq _ _ ▸ h).symm
      · have hmem : ((((store ++ [pk]) ++ [audioKey text]).erase pk).contains
            (audioKey text)) = true := by
          simpa using mem_erase_append_self store pk (audioKey text)
        rw [get_audio_hit o2 _ text hmem]
    | failed =>
      rw [get_audio_miss_failed store text hc']
      refine ⟨le_refl 1, fun h => absurd h hc, ?_, ?_⟩
      · intro fn h
        simp at h
      · intro h
        simp at h
    | errored b =>
      rw [get_audio_miss_errored b store text hc']
      refine ⟨?_, fun h => absurd h hc, ?_, ?_⟩
      · cases b <;> simp
      · intro fn h
        simp at h
      · intro h
        simp at h

open AnkiBot in
/-- Witness for the amended C7 at a concrete input (a cache hit). -/
theorem get_audio_cache_and_filename_witness :
    ([audioKey (chars "Haus")].contains (audioKey (chars "Haus")) = true) ∧
      get_audio SynthOutcome.failed [audioKey (chars "Haus")] (chars "Haus") =
        ⟨some (audioFilename (chars "Haus")), [audioKey (chars "Haus")], 0⟩ :=
  ⟨by decide,
   (get_audio_cache_and_filename SynthOutcome.failed SynthOutcome.failed
      [audioKey (chars "Haus")] (chars "Haus")).2.1 (by decide)⟩

open AnkiBot in
/-- Counterexample to C7 as stated: when the first synthesis fails, a second
call with the identical text submits a second job, so two calls do not issue
at most one synthesis job. -/
theorem get_audio_two_failed_calls_submit_two_jobs :
    (get_audio SynthOutcome.failed [] (chars "Haus")).jobs +
      (get_audio SynthOutcome.failed
        (get_audio SynthOutcome.failed [] (chars "Haus")).store (chars "Haus")).jobs = 2 := by
  decide

open AnkiBot in
/-- C8: `generate_audio_files` returns the audio results in input order —
position 0 is the query's audio and positions 1..N the examples' audio in
the original example order — for every completion order of the underlying
tasks. -/
theorem generate_audio_files_preserves_order (f : List Char → Option (List Char))
    (query : List Char) (examples : List (List Char)) (order : List Nat)
    (hperm : order.Perm (List.range (examples.length + 1))) :
    generate_audio_files f query examples order = (f query, examples.map f) := by
  show (match fanIn (query :: examples).length
      (completeInOrder f (query :: examples) order) with
    | [] => (none, [])
    | r :: rs => (r, rs)) = (f query, examples.map f)
  rw [fanIn_completeInOrder_of_perm f (query :: examples) order
        ((query :: examples).length) (by simpa using hperm),
      range_map_taskRes, List.map_cons]

open AnkiBot in
/-- Witness for C8: three examples completing in the scrambled order
`[2, 0, 3, 1]` still yield `[query, example1, example2, example3]`. -/
theorem generate_audio_files_preserves_order_witness :
    (([2, 0, 3, 1] : List Nat).Perm (List.range (3 + 1))) ∧
      generate_audio_files (fun t => some (t ++ chars "!")) (chars "q")
          [chars "e1", chars "e2", chars "e3"] [2, 0, 3, 1] =
        (some (chars "q!"),
         [some (chars "e1!"), some (chars "e2!"), some (chars "e3!")]) :=
  ⟨by decide,
   generate_audio_files_preserves_order (fun t => some (t ++ chars "!")) (chars "q")
     [chars "e1", chars "e2", chars "e3"] [2, 0, 3, 1] (by decide)⟩

open AnkiBot in
/-- C10: serializing a `LanguageEntry` with `to_dict` and reading it back
with `from_dict` is a lossless round-trip, for every entry whose `id` and
`created_at` are set (as `__post_init__` guarantees for every constructed
entry; a falsy `id`/`created_at` would be regenerated on the way back). -/
theorem languageEntry_to_dict_from_dict_roundtrip (f1 f2 : List Char)
    (e : LanguageEntry) (hid : e.id ≠ []) (hca : e.created_at ≠ []) :
    LanguageEntry.from_dict f1 f2 e.to_dict = some e := by
  obtain ⟨q, df, tr, exs, af, i, ca⟩ := e
  cases af with
  | none =>
    show (examplesFromDict (exs.map Example.to_dict)).map
        (fun exl => mkLanguageEntry f1 f2 ⟨q, df, tr, exl, none, i, ca⟩) =
      some ⟨q, df, tr, exs, none, i, ca⟩
    rw [examplesFromDict_roundtrip]
    show some (mkLanguageEntry f1 f2 ⟨q, df, tr, exs, none, i, ca⟩) =
      some ⟨q, df, tr, exs, none, i, ca⟩
    unfold mkLanguageEntry
    rw [if_neg hid, if_neg hca]
  | some a =>
    show (examplesFromDict (exs.map Example.to_dict)).map
        (fun exl => mkLanguageEntry f1 f2 ⟨q, df, tr, exl, some a, i, ca⟩) =
      some ⟨q, df, tr, exs, some a, i, ca⟩
    rw [examplesFromDict_roundtrip]
    show some (mkLanguageEntry f1 f2 ⟨q, df, tr, exs, some a, i, ca⟩) =
      some ⟨q, df, tr, exs, some a, i, ca⟩
    unfold mkLanguageEntry
    rw [if_neg hid, if_neg hca]

open AnkiBot in
/-- Witness for C10 at a concrete entry with examples, audio references and
an optional query audio. -/
theorem languageEntry_roundtrip_witness :
    ((⟨chars "Haus", chars "Haus, Häuser", chars "дом",
        [⟨chars "a", chars "b", some (chars "x.mp3")⟩, ⟨chars "c", chars "d", none⟩],
        some (chars "q.mp3"), chars "id1", chars "2024-01-01"⟩ : LanguageEntry).id ≠ []) ∧
      LanguageEntry.from_dict (chars "f") (chars "g")
          (⟨chars "Haus", chars "Haus, Häuser", chars "дом",
            [⟨chars "a", chars "b", some (chars "x.mp3")⟩, ⟨chars "c", chars "d", none⟩],
            some (chars "q.mp3"), chars "id1", chars "2024-01-01"⟩ :
              LanguageEntry).to_dict =
        some ⟨chars "Haus", chars "Haus, Häuser", chars "дом",
          [⟨chars "a", chars "b", some (chars "x.mp3")⟩, ⟨chars "c", chars "d", none⟩],
          some (chars "q.mp3"), chars "id1", chars "2024-01-01"⟩ :=
  ⟨by decide,
   languageEntry_to_dict_from_dict_roundtrip (chars "f") (chars "g") _
     (by decide) (by decide)⟩

open AnkiBot in
/-- Witness for C9 at a concrete input. -/
theorem get_audio_failure_returns_none_witness :
    (([] : List (List Char)).contains (audioKey (chars "Haus")) = false) ∧
      (get_audio SynthOutcome.failed [] (chars "Haus")).result = none :=
  ⟨by decide,
   get_audio_failure_returns_none SynthOutcome.failed [] (chars "Haus") (by decide)
     (Or.inl rfl)⟩

namespace AnkiBot

theorem splitOnChar_ne_nil (sep : Char) (l : List Char) : splitOnChar sep l ≠ [] := by
  cases l with
  | nil => simp [splitOnChar]
  | cons c cs =>
    simp only [splitOnChar]
    cases h : splitOnChar sep cs with
    | nil => simp
    | cons x xs =>
      by_cases hc : c = sep <;> simp [hc]

theorem mem_iff_two_le_parts (sep : Char) (l : List Char) :
    sep ∈ l ↔ 2 ≤ (splitOnChar sep l).length := by
  induction l with
  | nil => simp [splitOnChar]
  | cons c cs ih =>
    cases h : splitOnChar sep cs with
    | nil => exact absurd h (splitOnChar_ne_nil sep cs)
    | cons x xs =>
      rw [h] at ih
      by_cases hc : c = sep
      · subst hc
        simp [splitOnChar, h]
      · simp only [splitOnChar, h, if_neg hc, List.mem_cons]
        constructor
        · rintro (rfl | hm)
          · exact absurd rfl hc
          · simpa using ih.mp hm
        · intro hlen
          exact Or.inr (ih.mpr (by simpa using hlen))

theorem contains_iff_two_le_parts (sep : Char) (l : List Char) :
    l.contains sep = true ↔ 2 ≤ (splitOnChar sep l).length := by
  rw [← mem_iff_two_le_parts]
  exact List.elem_iff

theorem contains_pipe_iff (l : List Char) :
    l.contains '|' = true ↔ 2 ≤ (pipeParts l).length :=
  contains_iff_two_le_parts '|' l

theorem pairOf_eq_none_of_not_contains (l : List Char) (h : l.contains '|' = false) :
    pairOf l = none := by
  have hlen : ¬ 2 ≤ (pipeParts l).length := fun h2 => by
    have hb := (contains_pipe_iff l).mpr h2
    rw [h] at hb
    exact Bool.noConfusion hb
  unfold pairOf
  cases hp : pipeParts l with
  | nil => rfl
  | cons a t =>
    cases t with
    | nil => rfl
    | cons b t2 =>
      rw [hp] at hlen
      simp at hlen

theorem parseExampleLines_of_all_le_two (ls : List (List Char))
    (h : ∀ l ∈ ls, (pipeParts l).length ≤ 2) :
    parseExampleLines ls = some (ls.filterMap pairOf) := by
  induction ls with
  | nil => rfl
  | cons l rest ih =>
    have hrest := ih fun x hx => h x (List.mem_cons_of_mem l hx)
    by_cases hc : l.contains '|' = true
    · have h2 : 2 ≤ (pipeParts l).length := (contains_pipe_iff l).mp hc
      have h2' : (pipeParts l).length ≤ 2 := h l (List.mem_cons_self l rest)
      cases hp : pipeParts l with
      | nil => rw [hp] at h2; simp at h2
      | cons a t =>
        cases t with
        | nil => rw [hp] at h2; simp at h2
        | cons b t2 =>
          cases t2 with
          | nil =>
            simp only [parseExampleLines, hc, if_true, hp, hrest, Option.map_some']
            simp only [List.filterMap_cons, pairOf, hp]
          | cons x t3 =>
            rw [hp] at h2'
            simp at h2'
    · have hc' : l.contains '|' = false := by
        revert hc
        cases l.contains '|' <;> simp
      simp only [parseExampleLines, hc', Bool.false_eq_true, if_false, hrest,
        List.filterMap_cons, pairOf_eq_none_of_not_contains l hc']

theorem parseExampleLines_of_bad_line (ls : List (List Char)) (l : List Char)
    (hl : l ∈ ls) (hbad : 3 ≤ (pipeParts l).length) :
    parseExampleLines ls = none := by
  induction ls with
  | nil => simp at hl
  | cons hd tl ih =>
    rcases List.mem_cons.mp hl with rfl | hmem
    · have hc : l.contains '|' = true := by
        rw [contains_pipe_iff]
        omega
      cases hp : pipeParts l with
      | nil => rw [hp] at hbad; simp at hbad
      | cons a t =>
        cases t with
        | nil => rw [hp] at hbad; simp at hbad
        | cons b t2 =>
          cases t2 with
          | nil => rw [hp] at hbad; simp at hbad
          | cons x t3 =>
            have hm : '|' ∈ l := by simpa using hc
            simp [parseExampleLines, hm, hp]
    · have := ih hmem
      by_cases hc : hd.contains '|' = true
      · have hm : '|' ∈ hd := by simpa using hc
        cases hp : pipeParts hd with
        | nil => simp [parseExampleLines, hm, hp, this]
        | cons a t =>
          cases t with
          | nil => simp [parseExampleLines, hm, hp, this]
          | cons b t2 =>
            cases t2 with
            | nil => simp [parseExampleLines, hm, hp, this]
            | cons x t3 => simp [parseExampleLines, hm, hp]
      · have hm' : '|' ∉ hd := fun hmem => hc (by simpa using hmem)
        simp [parseExampleLines, hm', this]

end AnkiBot

open AnkiBot in
/-- C4 (amended): every non-blank line after the first that contains exactly
one `'|'` yields exactly one stripped (example, translation) pair, lines
without `'|'` are silently dropped, and a subsequent line with two or more
`'|'` characters makes the parse raise (the claim as stated said no line
with a `'|'` can cause an error — see the counterexample). -/
theorem parse_claude_response_example_lines :
    (∀ (r defLine : List Char) (rest : List (List Char)) (d t : List Char),
       nonBlankLines r = defLine :: rest →
       pipeParts defLine = [d, t] →
       (∀ l ∈ rest, (pipeParts l).length ≤ 2) →
       parse_claude_response r = some (pyStrip d, pyStrip t, rest.filterMap pairOf)) ∧
    (∀ (r defLine : List Char) (rest : List (List Char)),
       nonBlankLines r = defLine :: rest →
       (∃ l ∈ rest, 3 ≤ (pipeParts l).length) →
       parse_claude_response r = none) := by
  constructor
  · intro r defLine rest d t h1 h2 h3
    simp only [parse_claude_response, h1, h2, parseExampleLines_of_all_le_two rest h3,
      Option.map_some']
  · intro r defLine rest h1 ⟨l, hl, hbad⟩
    have hnone := parseExampleLines_of_bad_line rest l hl hbad
    simp only [parse_claude_response, h1]
    cases hp : pipeParts defLine with
    | nil => rfl
    | cons a t =>
      cases t with
      | nil => rfl
      | cons b t2 =>
        cases t2 with
        | nil => simp [hnone]
        | cons x t3 => rfl

open AnkiBot in
/-- Witness for the amended C4: a response whose second line has one `'|'`
and whose third line has none parses to one pair with the pipeless line
dropped. -/
theorem parse_claude_response_example_lines_witness :
    nonBlankLines (chars "a | b\nc|d\nnopipe") =
        [chars "a | b", chars "c|d", chars "nopipe"] ∧
      parse_claude_response (chars "a | b\nc|d\nnopipe") =
        some (pyStrip (chars "a "), pyStrip (chars " b"),
          [chars "c|d", chars "nopipe"].filterMap pairOf) :=
  ⟨by decide,
   parse_claude_response_example_lines.1 (chars "a | b\nc|d\nnopipe")
     (chars "a | b") [chars "c|d", chars "nopipe"] (chars "a ") (chars " b")
     (by decide) (by decide) (by decide)⟩

open AnkiBot in
/-- Counterexample to C4 as stated: the second line `"x | y | z"` contains a
`'|'`, yet instead of producing a pair the parse raises (the tuple unpacking
of the three split parts fails), modelled as `none`. -/
theorem parse_claude_response_multi_pipe_raises :
    ((chars "x | y | z").contains '|' = true) ∧
      parse_claude_response (chars "a | b\nx | y | z") = none := by
  constructor <;> decide

namespace AnkiBot

theorem create_language_entry_query (claude audioF : List Char → Option (List Char))
    (order : List Nat) (f1 f2 q : List Char) (e : LanguageEntry)
    (h : create_language_entry claude audioF order f1 f2 q = some e) :
    e.query = q := by
  cases hc : claude q with
  | none =>
    simp only [create_language_entry, hc] at h
    cases h
  | some resp =>
    cases hp : parse_claude_response resp with
    | none =>
      simp only [create_language_entry, hc, hp] at h
      cases h
    | some dtp =>
      obtain ⟨d, t, pairs⟩ := dtp
      simp only [create_language_entry, hc, hp, Option.some.injEq] at h
      rw [← h]
      rfl

theorem countQuery_zero_iff (s : List LanguageEntry) (q : List Char) :
    countQuery s q = 0 ↔ get_by_query s q = none := by
  unfold countQuery get_by_query
  rw [List.length_eq_zero, List.filter_eq_nil_iff, List.find?_eq_none]

theorem put_item_append (s : List LanguageEntry) (e : LanguageEntry)
    (hid : ∀ x ∈ s, x.id ≠ e.id) : put_item s e = s ++ [e] := by
  unfold put_item
  have hany : (s.any fun x => x.id == e.id) = false := by
    rw [List.any_eq_false]
    intro x hx
    simp [hid x hx]
  rw [hany]
  rfl

end AnkiBot

open AnkiBot in
/-- C5: processing the same line twice through the orchestrator loop yields
exactly one stored entry — the first pass creates and saves it, the second
pass finds it by exact query text and skips, with no new entry and no
overwrite (the store is left untouched).  Hypotheses: the creation succeeds,
no entry with that query exists yet, and the fresh `uuid4` id collides with
no stored id. -/
theorem processLine_same_line_twice_idempotent
    (claude audioF : List Char → Option (List Char)) (order : List Nat)
    (f1 f2 : List Char) (store : List LanguageEntry) (l : List Char)
    (e : LanguageEntry)
    (hcreate : create_language_entry claude audioF order f1 f2 l = some e)
    (hnew : countQuery store l = 0)
    (hfresh : ∀ x ∈ store, x.id ≠ e.id) :
    processLine (create_language_entry claude audioF order f1 f2) store l =
        store ++ [e] ∧
    countQuery
        (processLine (create_language_entry claude audioF order f1 f2) store l) l = 1 ∧
    processLine (create_language_entry claude audioF order f1 f2)
        (processLine (create_language_entry claude audioF order f1 f2) store l) l =
      processLine (create_language_entry claude audioF order f1 f2) store l := by
  have hq : e.query = l := create_language_entry_query claude audioF order f1 f2 l e hcreate
  have hget : get_by_query store l = none := (countQuery_zero_iff store l).mp hnew
  have h1 : processLine (create_language_entry claude audioF order f1 f2) store l =
      store ++ [e] := by
    simp only [processLine, hget, hcreate]
    exact put_item_append store e hfresh
  have hfind : store.find? (fun x => x.query == l) = none := hget
  have hcount : countQuery (store ++ [e]) l = 1 := by
    unfold countQuery
    rw [List.filter_append]
    have h0 : (store.filter fun x => x.query == l) = [] := List.length_eq_zero.mp hnew
    rw [h0]
    simp [hq]
  have hget2 : get_by_query (store ++ [e]) l = some e := by
    unfold get_by_query
    rw [List.find?_append, hfind]
    simp [hq]
  refine ⟨h1, ?_, ?_⟩
  · rw [h1]
    exact hcount
  · rw [h1]
    simp only [processLine, hget2]

open AnkiBot in
/-- Witness for C5 at a concrete input: a one-line LLM response, no audio,
an empty store. -/
theorem processLine_same_line_twice_idempotent_witness :
    (create_language_entry (fun _ => some (chars "a | b")) (fun _ => none) [0]
        (chars "i1") (chars "tm") (chars "q") =
      some ⟨chars "q", chars "a", chars "b", [], none, chars "i1", chars "tm"⟩) ∧
    (processLine (create_language_entry (fun _ => some (chars "a | b")) (fun _ => none)
          [0] (chars "i1") (chars "tm")) [] (chars "q") =
        [] ++ [⟨chars "q", chars "a", chars "b", [], none, chars "i1", chars "tm"⟩] ∧
      countQuery
        (processLine (create_language_entry (fun _ => some (chars "a | b")) (fun _ => none)
          [0] (chars "i1") (chars "tm")) [] (chars "q")) (chars "q") = 1 ∧
      processLine (create_language_entry (fun _ => some (chars "a | b")) (fun _ => none)
          [0] (chars "i1") (chars "tm"))
        (processLine (create_language_entry (fun _ => some (chars "a | b")) (fun _ => none)
          [0] (chars "i1") (chars "tm")) [] (chars "q")) (chars "q") =
      processLine (create_language_entry (fun _ => some (chars "a | b")) (fun _ => none)
          [0] (chars "i1") (chars "tm")) [] (chars "q")) :=
  ⟨by decide,
   processLine_same_line_twice_idempotent (fun _ => some (chars "a | b")) (fun _ => none)
     [0] (chars "i1") (chars "tm") [] (chars "q")
     ⟨chars "q", chars "a", chars "b", [], none, chars "i1", chars "tm"⟩
     (by decide) (by decide) (by decide)⟩

open AnkiBot in
/-- C6: one failing line does not abort the batch: in a 3-line batch whose
second line fails to create (LLM error or parse error, modelled as `none`),
the loop still persists the entries of lines 1 and 3.  Hypotheses: the other
two creations succeed with their query texts, those queries are not yet
stored, and the fresh ids collide with nothing. -/
theorem process_lines_partial_failure_isolation
    (create : List Char → Option LanguageEntry) (store : List LanguageEntry)
    (l1 l2 l3 : List Char) (e1 e3 : LanguageEntry)
    (h1 : create l1 = some e1) (h2 : create l2 = none) (h3 : create l3 = some e3)
    (hq1 : e1.query = l1) (_hq3 : e3.query = l3)
    (hg1 : get_by_query store l1 = none) (hg3 : get_by_query store l3 = none)
    (hne : l1 ≠ l3)
    (hid1 : ∀ x ∈ store, x.id ≠ e1.id)
    (hid3 : ∀ x ∈ store, x.id ≠ e3.id) (hid13 : e1.id ≠ e3.id) :
    process_lines create store [l1, l2, l3] = store ++ [e1, e3] ∧
    e1 ∈ process_lines create store [l1, l2, l3] ∧
    e3 ∈ process_lines create store [l1, l2, l3] := by
  have s1 : processLine create store l1 = store ++ [e1] := by
    simp only [processLine, hg1, h1]
    exact put_item_append store e1 hid1
  have s2 : processLine create (store ++ [e1]) l2 = store ++ [e1] := by
    cases hg : get_by_query (store ++ [e1]) l2 with
    | some x => simp only [processLine, hg]
    | none => simp only [processLine, hg, h2]
  have hg3' : get_by_query (store ++ [e1]) l3 = none := by
    unfold get_by_query at hg3 ⊢
    rw [List.find?_append, hg3]
    simp [hq1, hne]
  have s3 : processLine create (store ++ [e1]) l3 = (store ++ [e1]) ++ [e3] := by
    simp only [processLine, hg3', h3]
    apply put_item_append
    intro x hx
    rcases List.mem_append.mp hx with hx | hx
    · exact hid3 x hx
    · rw [List.mem_singleton.mp hx]
      exact hid13
  have hfold : process_lines create store [l1, l2, l3] = (store ++ [e1]) ++ [e3] := by
    unfold process_lines
    simp only [List.foldl_cons, List.foldl_nil]
    rw [s1, s2, s3]
  rw [hfold]
  refine ⟨by simp, by simp, by simp⟩

open AnkiBot in
/-- Witness for C6: a concrete 3-line batch whose second line fails to
create; lines 1 and 3 are both persisted. -/
theorem process_lines_partial_failure_isolation_witness :
    ((fun q => if q = chars "x" then
          some (⟨chars "x", chars "d", chars "t", [], none, chars "i1", chars "c"⟩ :
            LanguageEntry)
        else if q = chars "y" then
          some ⟨chars "y", chars "d", chars "t", [], none, chars "i2", chars "c"⟩
        else none) (chars "bad") = none) ∧
    process_lines
        (fun q => if q = chars "x" then
            some ⟨chars "x", chars "d", chars "t", [], none, chars "i1", chars "c"⟩
          else if q = chars "y" then
            some ⟨chars "y", chars "d", chars "t", [], none, chars "i2", chars "c"⟩
          else none)
        [] [chars "x", chars "bad", chars "y"] =
      [] ++ [⟨chars "x", chars "d", chars "t", [], none, chars "i1", chars "c"⟩,
             ⟨chars "y", chars "d", chars "t", [], none, chars "i2", chars "c"⟩] :=
  ⟨by decide,
   (process_lines_partial_failure_isolation
     (fun q => if q = chars "x" then
         some ⟨chars "x", chars "d", chars "t", [], none, chars "i1", chars "c"⟩
       else if q = chars "y" then
         some ⟨chars "y", chars "d", chars "t", [], none, chars "i2", chars "c"⟩
       else none)
     [] (chars "x") (chars "bad") (chars "y")
     ⟨chars "x", chars "d", chars "t", [], none, chars "i1", chars "c"⟩
     ⟨chars "y", chars "d", chars "t", [], none, chars "i2", chars "c"⟩
     (by decide) (by decide) (by decide) (by decide) (by decide)
     (by decide) (by decide) (by decide) (by decide) (by decide) (by decide)).1⟩

namespace AnkiBot

/-- Keys of a parsed dict are pairwise distinct. -/
def NodupKeys (d : List (List Nat × List Nat)) : Prop := (d.map (·.1)).Nodup

theorem mem_keys_dinsert (k v k' : List Nat) (d : List (List Nat × List Nat))
    (h : k' ∈ (dinsert k v d).map (·.1)) : k' = k ∨ k' ∈ d.map (·.1) := by
  induction d with
  | nil => simpa [dinsert] using h
  | cons p rest ih =>
    obtain ⟨k1, v1⟩ := p
    by_cases hp : k1 = k
    · simp only [dinsert, if_pos hp, List.map_cons, List.mem_cons] at h
      rcases h with rfl | h
      · exact Or.inl rfl
      · exact Or.inr (List.mem_cons_of_mem k1 h)
    · simp only [dinsert, if_neg hp, List.map_cons, List.mem_cons] at h
      rcases h with rfl | h
      · exact Or.inr (List.mem_cons_self k' _)
      · rcases ih h with h' | h'
        · exact Or.inl h'
        · exact Or.inr (List.mem_cons_of_mem k1 h')

theorem nodupKeys_dinsert (k v : List Nat) (d : List (List Nat × List Nat))
    (h : NodupKeys d) : NodupKeys (dinsert k v d) := by
  induction d with
  | nil => simp [NodupKeys, dinsert]
  | cons p rest ih =>
    obtain ⟨k1, v1⟩ := p
    have hk1 : k1 ∉ rest.map (·.1) := by
      have := h
      simp only [NodupKeys, List.map_cons, List.nodup_cons] at this
      exact this.1
    have hrest : NodupKeys rest := by
      have := h
      simp only [NodupKeys, List.map_cons, List.nodup_cons] at this
      exact this.2
    by_cases hp : k1 = k
    · subst hp
      have hd : dinsert k1 v ((k1, v1) :: rest) = (k1, v) :: rest := by
        simp [dinsert]
      rw [NodupKeys, hd]
      simp only [List.map_cons, List.nodup_cons]
      exact ⟨hk1, hrest⟩
    · simp only [NodupKeys, dinsert, if_neg hp, List.map_cons, List.nodup_cons]
      refine ⟨?_, ih hrest⟩
      intro hmem
      rcases mem_keys_dinsert k v k1 rest hmem with rfl | h'
      · exact hp rfl
      · exact hk1 h'

theorem nodupKeys_foldl (params : List (List Nat)) (d : List (List Nat × List Nat))
    (h : NodupKeys d) :
    NodupKeys (params.foldl
      (fun acc param =>
        match splitFirstEq param with
        | some kv => dinsert kv.1 (unquoteBytes kv.2) acc
        | none => acc) d) := by
  induction params generalizing d with
  | nil => exact h
  | cons p rest ih =>
    simp only [List.foldl_cons]
    cases hs : splitFirstEq p with
    | none => exact ih d h
    | some kv => exact ih _ (nodupKeys_dinsert kv.1 (unquoteBytes kv.2) d h)

theorem nodupKeys_parseInitData (s : List Nat) : NodupKeys (parseInitData s) :=
  nodupKeys_foldl (splitOnByte 38 s) [] (by simp [NodupKeys])

theorem dremove_eq_filter (k : List Nat) (d : List (List Nat × List Nat))
    (h : NodupKeys d) : dremove k d = d.filter fun p => !(p.1 == k) := by
  induction d with
  | nil => rfl
  | cons p rest ih =>
    obtain ⟨k1, v1⟩ := p
    have hk1 : k1 ∉ rest.map (·.1) := by
      have := h
      simp only [NodupKeys, List.map_cons, List.nodup_cons] at this
      exact this.1
    have hrest : NodupKeys rest := by
      have := h
      simp only [NodupKeys, List.map_cons, List.nodup_cons] at this
      exact this.2
    by_cases hp : k1 = k
    · subst hp
      have h1 : dremove k1 ((k1, v1) :: rest) = rest := by simp [dremove]
      have h2 : ((k1, v1) :: rest).filter (fun p => !(p.1 == k1)) =
          rest.filter fun p => !(p.1 == k1) := by
        simp [List.filter_cons]
      rw [h1, h2]
      symm
      rw [List.filter_eq_self]
      intro p hp'
      simp only [Bool.not_eq_true']
      rw [beq_eq_false_iff_ne]
      intro hpk
      exact hk1 (hpk ▸ List.mem_map_of_mem (·.1) hp')
    · have h1 : dremove k ((k1, v1) :: rest) = (k1, v1) :: dremove k rest := by
        simp [dremove, hp]
      have h2 : ((k1, v1) :: rest).filter (fun p => !(p.1 == k)) =
          (k1, v1) :: rest.filter fun p => !(p.1 == k) := by
        simp [List.filter_cons, hp]
      rw [h1, h2, ih hrest]

theorem map_fst_insertPairSorted (x : List Nat × List Nat)
    (l : List (List Nat × List Nat)) :
    (insertPairSorted x l).map (·.1) = insertSorted x.1 (l.map (·.1)) := by
  induction l with
  | nil => rfl
  | cons y ys ih =>
    simp only [insertPairSorted, insertSorted, List.map_cons]
    by_cases hle : bytesLe y.1 x.1
    · rw [if_pos hle, if_pos hle, List.map_cons, ih]
    · rw [if_neg hle, if_neg hle]
      rfl

theorem map_fst_sortPairsByKey (d : List (List Nat × List Nat)) :
    (sortPairsByKey d).map (·.1) = sortBytes (d.map (·.1)) := by
  induction d with
  | nil => rfl
  | cons p rest ih =>
    simp only [sortPairsByKey, sortBytes, List.foldr_cons, List.map_cons] at ih ⊢
    rw [map_fst_insertPairSorted, ih]

theorem mem_insertPairSorted (x y : List Nat × List Nat)
    (l : List (List Nat × List Nat)) :
    y ∈ insertPairSorted x l ↔ y = x ∨ y ∈ l := by
  induction l with
  | nil => simp [insertPairSorted]
  | cons z zs ih =>
    simp only [insertPairSorted]
    by_cases hle : bytesLe z.1 x.1
    · rw [if_pos hle]
      simp only [List.mem_cons, ih]
      tauto
    · rw [if_neg hle]
      simp only [List.mem_cons]

theorem mem_sortPairsByKey (d : List (List Nat × List Nat))
    (y : List Nat × List Nat) : y ∈ sortPairsByKey d ↔ y ∈ d := by
  induction d with
  | nil => simp [sortPairsByKey]
  | cons p rest ih =>
    simp only [sortPairsByKey, List.foldr_cons] at ih ⊢
    rw [mem_insertPairSorted, ih, List.mem_cons]

theorem dlookup_of_mem_nodup (k v : List Nat) (d : List (List Nat × List Nat))
    (hnd : NodupKeys d) (hmem : (k, v) ∈ d) : dlookup k d = some v := by
  induction d with
  | nil => simp at hmem
  | cons p rest ih =>
    obtain ⟨k1, v1⟩ := p
    have hk1 : k1 ∉ rest.map (·.1) := by
      have := hnd
      simp only [NodupKeys, List.map_cons, List.nodup_cons] at this
      exact this.1
    have hrest : NodupKeys rest := by
      have := hnd
      simp only [NodupKeys, List.map_cons, List.nodup_cons] at this
      exact this.2
    rcases List.mem_cons.mp hmem with heq | hmem'
    · rw [Prod.mk.injEq] at heq
      obtain ⟨rfl, rfl⟩ := heq
      simp [dlookup]
    · have hk : k ∈ rest.map (·.1) := List.mem_map_of_mem (·.1) hmem'
      have hne : ¬ (k1 = k) := by
        intro h
        apply hk1
        rw [h]
        exact hk
      have hfind : List.find? (fun p => p.1 == k) ((k1, v1) :: rest) =
          List.find? (fun p => p.1 == k) rest := by
        rw [List.find?_cons_of_neg]
        simp [hne]
      unfold dlookup
      rw [hfind]
      exact ih hrest hmem'

theorem dataCheckString_eq_sortPairs (d : List (List Nat × List Nat))
    (hnd : NodupKeys d) :
    dataCheckString d =
      List.intercalate [10] ((sortPairsByKey d).map fun p => p.1 ++ 61 :: p.2) := by
  unfold dataCheckString
  congr 1
  rw [← map_fst_sortPairsByKey, List.map_map]
  apply List.map_congr_left
  intro p hp
  have hmem : p ∈ d := (mem_sortPairsByKey d p).mp hp
  have hlook : dlookup p.1 d = some p.2 := dlookup_of_mem_nodup p.1 p.2 d hnd hmem
  simp only [Function.comp_apply, hlook, Option.getD_some]

theorem nodupKeys_filter (d : List (List Nat × List Nat)) (p : List Nat × List Nat → Bool)
    (h : NodupKeys d) : NodupKeys (d.filter p) := by
  unfold NodupKeys at h ⊢
  have hsub : List.Sublist ((d.filter p).map (·.1)) (d.map (·.1)) :=
    (List.filter_sublist d).map (·.1)
  exact h.sublist hsub

theorem claimCanonical_eq_dataCheckString (s : List Nat) :
    claimCanonical s = dataCheckString (dremove hashKey (parseInitData s)) := by
  unfold claimCanonical
  rw [dremove_eq_filter hashKey (parseInitData s) (nodupKeys_parseInitData s),
    dataCheckString_eq_sortPairs _
      (nodupKeys_filter (parseInitData s) _ (nodupKeys_parseInitData s))]

end AnkiBot

set_option maxRecDepth 40000

open AnkiBot in
/-- C1: with a configured bot token and a non-empty received `hash` field,
`validate_tg_init_data` parses the init data as `'&'`-separated `key=value`
pairs with URL-decoded values, removes the `hash` field, joins the remaining
pairs as sorted `key=value` lines (`claimCanonical`), derives the secret as
HMAC-SHA256 with key `"WebAppData"` over the bot token, and reports validity
exactly when the hex-encoded HMAC-SHA256 of the canonical string under that
secret equals the received hash. -/
theorem validate_tg_init_data_valid_iff (token s rh : List Nat)
    (htok : token ≠ [])
    (hh : dlookup hashKey (parseInitData s) = some rh) (hrh : rh ≠ []) :
    (validate_tg_init_data token s).1 = true ↔
      hexBytes (hmacSha256 (hmacSha256 (strBytes "WebAppData") token)
        (claimCanonical s)) = rh := by
  rw [claimCanonical_eq_dataCheckString]
  simp only [validate_tg_init_data, if_neg htok, hh, if_neg hrh]
  exact beq_iff_eq

open AnkiBot in
/-- Witness for C1 at a concrete token and init-data string whose hash is
the genuine HMAC-SHA256 value. -/
theorem validate_tg_init_data_valid_iff_witness :
    (strBytes "tok" ≠ []) ∧
    (dlookup hashKey (parseInitData (strBytes
        "a=1&b=2&hash=e72764869891ef703c54d5fbfa0e48aea8c149b09d2221e4bae8eddd9341f71e")) =
      some (strBytes
        "e72764869891ef703c54d5fbfa0e48aea8c149b09d2221e4bae8eddd9341f71e")) ∧
    ((validate_tg_init_data (strBytes "tok") (strBytes
        "a=1&b=2&hash=e72764869891ef703c54d5fbfa0e48aea8c149b09d2221e4bae8eddd9341f71e")).1 =
          true ↔
      hexBytes (hmacSha256 (hmacSha256 (strBytes "WebAppData") (strBytes "tok"))
          (claimCanonical (strBytes
            "a=1&b=2&hash=e72764869891ef703c54d5fbfa0e48aea8c149b09d2221e4bae8eddd9341f71e"))) =
        strBytes "e72764869891ef703c54d5fbfa0e48aea8c149b09d2221e4bae8eddd9341f71e") :=
  ⟨by decide, by decide,
   validate_tg_init_data_valid_iff (strBytes "tok") (strBytes
       "a=1&b=2&hash=e72764869891ef703c54d5fbfa0e48aea8c149b09d2221e4bae8eddd9341f71e")
     (strBytes "e72764869891ef703c54d5fbfa0e48aea8c149b09d2221e4bae8eddd9341f71e")
     (by decide) (by decide) (by decide)⟩

open AnkiBot in
/-- C2 (amended): `validate_tg_init_data` is total (never raises) and
degrades to `(false, none)` on a missing token configuration or an absent or
empty `hash` field; a `user` field whose value is malformed JSON yields no
user payload — but leaves `is_valid` as the hash-comparison result rather
than forcing it to `false` (see the counterexample). -/
theorem validate_tg_init_data_degrades (token s : List Nat) :
    (token = [] → validate_tg_init_data token s = (false, none)) ∧
    (dlookup hashKey (parseInitData s) = none →
      validate_tg_init_data token s = (false, none)) ∧
    (dlookup hashKey (parseInitData s) = some [] →
      validate_tg_init_data token s = (false, none)) ∧
    (∀ uv, dlookup userKey (parseInitData s) = some uv →
      isValidJsonBytes uv = false → (validate_tg_init_data token s).2 = none) := by
  refine ⟨?_, ?_, ?_, ?_⟩
  · intro h
    subst h
    simp [validate_tg_init_data]
  · intro h
    by_cases ht : token = []
    · simp [validate_tg_init_data, ht]
    · simp [validate_tg_init_data, if_neg ht, h]
  · intro h
    by_cases ht : token = []
    · simp [validate_tg_init_data, ht]
    · simp [validate_tg_init_data, if_neg ht, h]
  · intro uv hu hjson
    by_cases ht : token = []
    · simp [validate_tg_init_data, ht]
    · cases hh : dlookup hashKey (parseInitData s) with
      | none => simp [validate_tg_init_data, if_neg ht, hh]
      | some rh =>
        by_cases hr : rh = []
        · subst hr
          simp [validate_tg_init_data, if_neg ht, hh]
        · simp [validate_tg_init_data, if_neg ht, hh, if_neg hr, hu, hjson]

open AnkiBot in
/-- Witness for the amended C2 at concrete inputs for each degradation
mode. -/
theorem validate_tg_init_data_degrades_witness :
    validate_tg_init_data [] (strBytes "hash=aa") = (false, none) ∧
    validate_tg_init_data (strBytes "t") (strBytes "a=1") = (false, none) ∧
    validate_tg_init_data (strBytes "t") (strBytes "a=1&hash=") = (false, none) ∧
    (validate_tg_init_data (strBytes "token")
      (strBytes
        "user=x&hash=ea8f153893a4379e42487af0fc1d4c6de42dec5288dbdcbdac477ddcb3e915d6")).2 =
      none :=
  ⟨(validate_tg_init_data_degrades [] (strBytes "hash=aa")).1 rfl,
   (validate_tg_init_data_degrades (strBytes "t") (strBytes "a=1")).2.1 (by decide),
   (validate_tg_init_data_degrades (strBytes "t") (strBytes "a=1&hash=")).2.2.1 (by decide),
   (validate_tg_init_data_degrades (strBytes "token")
       (strBytes
         "user=x&hash=ea8f153893a4379e42487af0fc1d4c6de42dec5288dbdcbdac477ddcb3e915d6")).2.2.2
     (strBytes "x") (by decide) (by decide)⟩

open AnkiBot in
/-- Counterexample to C2 as stated: an init-data string whose `hash` is the
genuine HMAC-SHA256 value but whose `user` field is malformed JSON.  The
code returns `is_valid = true` (with no user payload) where the claim
demands not-authenticated (`is_valid = false`). -/
theorem validate_malformed_user_json_still_valid :
    isValidJsonBytes (strBytes "x") = false ∧
    dlookup userKey (parseInitData (strBytes
        "user=x&hash=ea8f153893a4379e42487af0fc1d4c6de42dec5288dbdcbdac477ddcb3e915d6")) =
      some (strBytes "x") ∧
    validate_tg_init_data (strBytes "token")
        (strBytes
          "user=x&hash=ea8f153893a4379e42487af0fc1d4c6de42dec5288dbdcbdac477ddcb3e915d6") =
      (true, none) := by
  refine ⟨by decide, by decide, by decide⟩
